import Mathlib

/-!
Verification of the service-container lifecycle layer of `go-web-skeleton`
(package `infrastructure/registry`), shallowly embedded in Lean.

External effects (configuration loading, filesystem and database calls) are
modelled by an explicit environment `Env` fixing the outcome of every external
call, and every operation returns its Go result together with the list of
observable events (directory creation, file open, writer close, pool open,
pool close, ping) it performed, in order.  Go errors are modelled as their
message strings; `fmt.Errorf("msg: %w", err)` becomes `"msg: " ++ err`.

The `Filepath` namespace models the Go standard library functions
`path/filepath.Clean`, `IsAbs` and `Dir` for Unix paths, which the logger code
uses.  `Clean` is implemented by the standard component-stack reading of Go's
lazybuf algorithm: split on `'/'`, drop empty and `"."` components, resolve
`".."` against a stack (a leading `".."` is kept for relative paths and
dropped for rooted ones), and re-render, with `""` and an empty result
rendering as `"."`.
-/

namespace Filepath

/-- Split a character list on `'/'` separators (components may be empty). -/
def splitSlash : List Char → List (List Char)
  | [] => [[]]
  | c :: rest =>
    match splitSlash rest with
    | [] => [[c]]
    | s :: ss => if c = '/' then [] :: s :: ss else (c :: s) :: ss

/-- Join components with `'/'` separators (inverse of `splitSlash`). -/
def joinSlash : List (List Char) → List Char
  | [] => []
  | [s] => s
  | s :: rest => s ++ '/' :: joinSlash rest

/-- Process one path component against the stack of already-emitted
components (head of the list is the most recent), as Go's `Clean` does:
empty and `"."` components are dropped; `".."` pops a normal component,
is dropped at the root of a rooted path, and is kept for a relative path
with nothing left to pop; anything else is pushed. -/
def cleanStep (rooted : Bool) (stack : List (List Char)) (c : List Char) :
    List (List Char) :=
  if c = [] ∨ c = ['.'] then stack
  else if c = ['.', '.'] then
    match stack with
    | s :: rest => if s = ['.', '.'] then (if rooted then stack else c :: stack) else rest
    | [] => if rooted then [] else [c]
  else c :: stack

/-- Resolve a component list, returning the surviving components in order. -/
def cleanSegs (rooted : Bool) (comps : List (List Char)) : List (List Char) :=
  (comps.foldl (cleanStep rooted) []).reverse

/-- `filepath.IsAbs` on Unix: the path starts with `'/'`. -/
def isAbsData : List Char → Bool
  | [] => false
  | c :: _ => c == '/'

/-- Re-render the resolved components as a path. -/
def renderPath (rooted : Bool) (segs : List (List Char)) : List Char :=
  if rooted then '/' :: joinSlash segs
  else
    match segs with
    | [] => ['.']
    | _ => joinSlash segs

/-- `filepath.Clean` on the underlying character list. -/
def cleanData (l : List Char) : List Char :=
  match l with
  | [] => ['.']
  | _ => renderPath (isAbsData l) (cleanSegs (isAbsData l) (splitSlash l))

/-- Go `path/filepath.Clean` (Unix). -/
def Clean (s : String) : String := ⟨cleanData s.data⟩

/-- Go `path/filepath.IsAbs` (Unix). -/
def IsAbs (s : String) : Bool := isAbsData s.data

/-- Go `path/filepath.Dir` (Unix): everything up to and including the final
`'/'` (empty if there is none), cleaned. -/
def Dir (s : String) : String :=
  ⟨cleanData ((s.data.reverse.dropWhile (· ≠ '/')).reverse)⟩

/-- A path component that survives resolution untouched: nonempty, not `"."`,
not `".."`, and containing no separator. -/
def goodSeg (c : List Char) : Prop :=
  c ≠ [] ∧ c ≠ ['.'] ∧ c ≠ ['.', '.'] ∧ '/' ∉ c

/-- Shape invariant of the component stack built by `cleanStep` (head is the
most recently pushed component): ordinary components atop a run of `".."`
entries, with no `".."` entry at all for a rooted path. -/
def NormalStack (rooted : Bool) (st : List (List Char)) : Prop :=
  ∃ names k, st = names ++ List.replicate k ['.', '.'] ∧
    (∀ c ∈ names, goodSeg c) ∧ (rooted = true → k = 0)

theorem splitSlash_ne_nil (l : List Char) : splitSlash l ≠ [] := by
  cases l with
  | nil => simp [splitSlash]
  | cons c rest =>
    simp only [splitSlash]
    cases h : splitSlash rest with
    | nil => simp
    | cons s ss =>
      dsimp only
      by_cases hc : c = '/'
      · rw [if_pos hc]
        simp
      · rw [if_neg hc]
        simp

theorem splitSlash_no_slash (l : List Char) : ∀ c ∈ splitSlash l, '/' ∉ c := by
  induction l with
  | nil =>
    intro c hc
    simp only [splitSlash, List.mem_singleton] at hc
    simp [hc]
  | cons a rest ih =>
    intro c hc
    simp only [splitSlash] at hc
    cases h : splitSlash rest with
    | nil => exact absurd h (splitSlash_ne_nil rest)
    | cons s ss =>
      rw [h] at hc
      dsimp only at hc
      by_cases ha : a = '/'
      · rw [if_pos ha] at hc
        rcases List.mem_cons.mp hc with rfl | hc
        · simp
        · exact ih c (h ▸ hc)
      · rw [if_neg ha] at hc
        rcases List.mem_cons.mp hc with rfl | hc
        · intro hmem
          rcases List.mem_cons.mp hmem with h1 | h1
          · exact ha h1.symm
          · exact ih s (h ▸ List.mem_cons_self s ss) h1
        · exact ih c (h ▸ List.mem_cons_of_mem s hc)

theorem splitSlash_cons_slash (l : List Char) :
    splitSlash ('/' :: l) = [] :: splitSlash l := by
  simp only [splitSlash]
  cases h : splitSlash l with
  | nil => exact absurd h (splitSlash_ne_nil l)
  | cons s ss =>
    dsimp only
    simp

theorem splitSlash_of_no_slash (s : List Char) (h : '/' ∉ s) :
    splitSlash s = [s] := by
  induction s with
  | nil => rfl
  | cons c rest ih =>
    have hc : c ≠ '/' := fun e => h (e ▸ List.mem_cons_self c rest)
    have hr : '/' ∉ rest := fun hm => h (List.mem_cons_of_mem c hm)
    simp only [splitSlash, ih hr]
    rw [if_neg hc]

theorem splitSlash_append (s l : List Char) (h : '/' ∉ s) :
    splitSlash (s ++ '/' :: l) = s :: splitSlash l := by
  induction s with
  | nil => simpa using splitSlash_cons_slash l
  | cons c rest ih =>
    have hc : c ≠ '/' := fun e => h (e ▸ List.mem_cons_self c rest)
    have hr : '/' ∉ rest := fun hm => h (List.mem_cons_of_mem c hm)
    rw [List.cons_append]
    show (match splitSlash (rest ++ '/' :: l) with
      | [] => [[c]]
      | s :: ss => if c = '/' then [] :: s :: ss else (c :: s) :: ss) =
        (c :: rest) :: splitSlash l
    rw [ih hr]
    dsimp only
    rw [if_neg hc]

theorem joinSlash_cons (s : List Char) (t : List (List Char)) (ht : t ≠ []) :
    joinSlash (s :: t) = s ++ '/' :: joinSlash t := by
  cases t with
  | nil => exact absurd rfl ht
  | cons a b => rfl

theorem splitSlash_joinSlash (segs : List (List Char)) (hne : segs ≠ [])
    (h : ∀ c ∈ segs, '/' ∉ c) : splitSlash (joinSlash segs) = segs := by
  induction segs with
  | nil => exact absurd rfl hne
  | cons s ss ih =>
    cases ss with
    | nil =>
      simpa [joinSlash] using splitSlash_of_no_slash s (h s (List.mem_cons_self _ _))
    | cons t ts =>
      rw [joinSlash_cons s (t :: ts) (by simp),
        splitSlash_append s _ (h s (List.mem_cons_self _ _)),
        ih (by simp) fun c hc => h c (List.mem_cons_of_mem s hc)]

theorem isAbsData_append (s t : List Char) (hs : s ≠ []) :
    isAbsData (s ++ t) = isAbsData s := by
  cases s with
  | nil => exact absurd rfl hs
  | cons c cs => rfl

theorem isAbsData_eq_false (s : List Char) (hs : s ≠ []) (h : '/' ∉ s) :
    isAbsData s = false := by
  cases s with
  | nil => exact absurd rfl hs
  | cons c cs =>
    have hc : c ≠ '/' := fun e => h (e ▸ List.mem_cons_self c cs)
    simpa [isAbsData] using hc

theorem cleanStep_nil_comp (rooted : Bool) (st : List (List Char)) :
    cleanStep rooted st [] = st := by
  simp [cleanStep]

theorem cleanStep_good (rooted : Bool) (st : List (List Char)) (c : List Char)
    (h : goodSeg c) : cleanStep rooted st c = c :: st := by
  unfold cleanStep
  rw [if_neg (not_or.mpr ⟨h.1, h.2.1⟩), if_neg h.2.2.1]

theorem cleanStep_dots_relative (j : Nat) :
    cleanStep false (List.replicate j ['.', '.']) ['.', '.'] =
      List.replicate (j + 1) ['.', '.'] := by
  cases j with
  | zero => rfl
  | succ n => rfl

theorem cleanStep_normal {rooted : Bool} {st : List (List Char)} {c : List Char}
    (h : NormalStack rooted st) (hc : '/' ∉ c) :
    NormalStack rooted (cleanStep rooted st c) := by
  obtain ⟨names, k, rfl, hnames, hk⟩ := h
  by_cases h1 : c = [] ∨ c = ['.']
  · unfold cleanStep
    rw [if_pos h1]
    exact ⟨names, k, rfl, hnames, hk⟩
  by_cases h2 : c = ['.', '.']
  · subst h2
    unfold cleanStep
    rw [if_neg h1, if_pos rfl]
    cases names with
    | nil =>
      cases k with
      | zero =>
        cases rooted with
        | true => exact ⟨[], 0, rfl, by simp, fun _ => rfl⟩
        | false => exact ⟨[], 1, rfl, by simp, by simp⟩
      | succ n =>
        cases rooted with
        | true => exact absurd (hk rfl) (Nat.succ_ne_zero n)
        | false =>
          rw [List.nil_append, List.replicate_succ]
          show NormalStack false (['.', '.'] :: ['.', '.'] :: List.replicate n ['.', '.'])
          exact ⟨[], n + 2, by rw [List.nil_append, List.replicate_succ,
            List.replicate_succ], by simp, by simp⟩
    | cons nm ns =>
      rw [List.cons_append]
      dsimp only
      rw [if_neg (hnames nm (List.mem_cons_self nm ns)).2.2.1]
      exact ⟨ns, k, rfl, fun x hx => hnames x (List.mem_cons_of_mem nm hx), hk⟩
  · unfold cleanStep
    rw [if_neg h1, if_neg h2]
    refine ⟨c :: names, k, rfl, ?_, hk⟩
    intro x hx
    rcases List.mem_cons.mp hx with rfl | hx
    · exact ⟨fun e => h1 (Or.inl e), fun e => h1 (Or.inr e), h2, hc⟩
    · exact hnames x hx

theorem foldl_cleanStep_normal (rooted : Bool) (comps : List (List Char))
    (st : List (List Char)) (hc : ∀ c ∈ comps, '/' ∉ c)
    (h : NormalStack rooted st) :
    NormalStack rooted (comps.foldl (cleanStep rooted) st) := by
  induction comps generalizing st with
  | nil => exact h
  | cons c cs ih =>
    exact ih _ (fun x hx => hc x (List.mem_cons_of_mem c hx))
      (cleanStep_normal h (hc c (List.mem_cons_self c cs)))

theorem foldl_cleanStep_push (rooted : Bool) (l : List (List Char))
    (st : List (List Char)) (h : ∀ c ∈ l, goodSeg c) :
    l.foldl (cleanStep rooted) st = l.reverse ++ st := by
  induction l generalizing st with
  | nil => rfl
  | cons c cs ih =>
    rw [List.foldl_cons, cleanStep_good rooted st c (h c (List.mem_cons_self c cs)),
      ih _ (fun x hx => h x (List.mem_cons_of_mem c hx)), List.reverse_cons,
      List.append_assoc, List.singleton_append]

theorem foldl_dots (k j : Nat) :
    (List.replicate k ['.', '.']).foldl (cleanStep false)
        (List.replicate j ['.', '.']) = List.replicate (k + j) ['.', '.'] := by
  induction k generalizing j with
  | zero => simp
  | succ n ih =>
    rw [List.replicate_succ, List.foldl_cons, cleanStep_dots_relative, ih]
    congr 1
    omega

theorem foldl_cleanStep_fixed (rooted : Bool) (names : List (List Char)) (k : Nat)
    (hn : ∀ c ∈ names, goodSeg c) (hk : rooted = true → k = 0) :
    (List.replicate k ['.', '.'] ++ names.reverse).foldl (cleanStep rooted) [] =
      names ++ List.replicate k ['.', '.'] := by
  have hnr : ∀ c ∈ names.reverse, goodSeg c := fun c hc => hn c (List.mem_reverse.mp hc)
  rw [List.foldl_append]
  cases rooted with
  | true =>
    rw [hk rfl]
    simp only [List.replicate_zero, List.foldl_nil, List.append_nil]
    rw [foldl_cleanStep_push true _ _ hnr, List.reverse_reverse, List.append_nil]
  | false =>
    have hd : (List.replicate k ['.', '.']).foldl (cleanStep false) [] =
        List.replicate k ['.', '.'] := by
      simpa using foldl_dots k 0
    rw [hd, foldl_cleanStep_push false _ _ hnr, List.reverse_reverse]

theorem cleanData_eq_of_ne_nil (l : List Char) (h : l ≠ []) :
    cleanData l = renderPath (isAbsData l) (cleanSegs (isAbsData l) (splitSlash l)) := by
  cases l with
  | nil => exact absurd rfl h
  | cons a t => rfl

theorem joinSlash_ne_nil (s : List Char) (ss : List (List Char)) (hs : s ≠ []) :
    joinSlash (s :: ss) ≠ [] := by
  cases ss with
  | nil => simpa [joinSlash] using hs
  | cons t ts =>
    rw [joinSlash_cons s (t :: ts) (by simp)]
    simp

theorem isAbsData_joinSlash (s0 : List Char) (rest : List (List Char))
    (h0 : s0 ≠ []) (hn : '/' ∉ s0) : isAbsData (joinSlash (s0 :: rest)) = false := by
  cases rest with
  | nil => exact isAbsData_eq_false s0 h0 hn
  | cons t ts =>
    rw [joinSlash_cons s0 (t :: ts) (by simp), isAbsData_append s0 _ h0]
    exact isAbsData_eq_false s0 h0 hn

/-- Re-cleaning a cleaned rooted path is a no-op. -/
theorem cleanData_rooted_fixed (segs : List (List Char))
    (h : ∀ c ∈ segs, goodSeg c) :
    cleanData ('/' :: joinSlash segs) = '/' :: joinSlash segs := by
  have hns : ∀ c ∈ segs, '/' ∉ c := fun c hc => (h c hc).2.2.2
  rw [cleanData_eq_of_ne_nil _ (by simp)]
  have habs : isAbsData ('/' :: joinSlash segs) = true := rfl
  rw [habs]
  cases segs with
  | nil => decide
  | cons s ss =>
    rw [splitSlash_cons_slash, splitSlash_joinSlash (s :: ss) (by simp) hns]
    unfold cleanSegs
    rw [List.foldl_cons, cleanStep_nil_comp,
      foldl_cleanStep_push true _ _ h, List.append_nil, List.reverse_reverse]
    rfl

/-- Re-cleaning a cleaned relative path is a no-op. -/
theorem cleanData_relative_fixed (names : List (List Char)) (k : Nat)
    (hnames : ∀ c ∈ names, goodSeg c)
    (hne : List.replicate k ['.', '.'] ++ names.reverse ≠ []) :
    cleanData (joinSlash (List.replicate k ['.', '.'] ++ names.reverse)) =
      joinSlash (List.replicate k ['.', '.'] ++ names.reverse) := by
  have hprops : ∀ c ∈ List.replicate k ['.', '.'] ++ names.reverse,
      c ≠ [] ∧ '/' ∉ c := by
    intro c hc
    rcases List.mem_append.mp hc with hc | hc
    · have hce : c = ['.', '.'] := List.eq_of_mem_replicate hc
      subst hce
      exact ⟨by simp, by decide⟩
    · have hg := hnames c (List.mem_reverse.mp hc)
      exact ⟨hg.1, hg.2.2.2⟩
  obtain ⟨s0, rest, hsegs⟩ : ∃ s0 rest,
      List.replicate k ['.', '.'] ++ names.reverse = s0 :: rest := by
    cases he : List.replicate k ['.', '.'] ++ names.reverse with
    | nil => exact absurd he hne
    | cons x xs => exact ⟨x, xs, rfl⟩
  have hprops' : ∀ c ∈ s0 :: rest, c ≠ [] ∧ '/' ∉ c := hsegs ▸ hprops
  have hs0 := hprops' s0 (List.mem_cons_self s0 rest)
  rw [hsegs]
  have hjne : joinSlash (s0 :: rest) ≠ [] := joinSlash_ne_nil s0 rest hs0.1
  rw [cleanData_eq_of_ne_nil _ hjne, isAbsData_joinSlash s0 rest hs0.1 hs0.2,
    splitSlash_joinSlash (s0 :: rest) (by simp) fun c hc => (hprops' c hc).2]
  unfold cleanSegs
  rw [← hsegs, foldl_cleanStep_fixed false names k hnames
    (fun hcontra => absurd hcontra (by simp)), List.reverse_append,
    List.reverse_replicate, hsegs]
  rfl

/-- Go's `filepath.Clean` is idempotent (on the character-list model). -/
theorem cleanData_idem (l : List Char) : cleanData (cleanData l) = cleanData l := by
  cases l with
  | nil => decide
  | cons a l0 =>
    obtain ⟨names, k, hst, hnames, hk⟩ :
        NormalStack (isAbsData (a :: l0))
          ((splitSlash (a :: l0)).foldl (cleanStep (isAbsData (a :: l0))) []) :=
      foldl_cleanStep_normal _ _ [] (splitSlash_no_slash _)
        ⟨[], 0, rfl, by simp, fun _ => rfl⟩
    have hclean : cleanData (a :: l0) =
        renderPath (isAbsData (a :: l0))
          (List.replicate k ['.', '.'] ++ names.reverse) := by
      show renderPath _ (cleanSegs _ (splitSlash (a :: l0))) = _
      unfold cleanSegs
      rw [hst, List.reverse_append, List.reverse_replicate]
    rw [hclean]
    cases habs : isAbsData (a :: l0) with
    | true =>
      have hk0 : k = 0 := hk habs
      subst hk0
      simp only [List.replicate_zero, List.nil_append]
      have hrp : renderPath true names.reverse = '/' :: joinSlash names.reverse := rfl
      rw [hrp]
      exact cleanData_rooted_fixed names.reverse
        fun c hc => hnames c (List.mem_reverse.mp hc)
    | false =>
      cases hsegs : List.replicate k ['.', '.'] ++ names.reverse with
      | nil =>
        have hrp : renderPath false ([] : List (List Char)) = ['.'] := rfl
        rw [hrp]
        decide
      | cons s0 rest =>
        have hne : List.replicate k ['.', '.'] ++ names.reverse ≠ [] := by
          rw [hsegs]
          simp
        have hrp : renderPath false (s0 :: rest) = joinSlash (s0 :: rest) := rfl
        rw [hrp, ← hsegs]
        exact cleanData_relative_fixed names k hnames hne

/-- Go's `filepath.Clean` is idempotent. -/
theorem Clean_idem (s : String) : Clean (Clean s) = Clean s := by
  show (⟨cleanData (cleanData s.data)⟩ : String) = ⟨cleanData s.data⟩
  rw [cleanData_idem]

end Filepath

/-!
The `Registry` namespace embeds package `infrastructure/registry`.  A value of
`Env` fixes the outcome of every external call a run can make (configuration
building, `os.MkdirAll`, `os.OpenFile`, `sql.Open`, `PingContext`, and the two
close operations); each embedded function returns the Go result paired with
the ordered list of observable events it performed.
-/

namespace Registry

/-- `config.HttpServerConfig` (fields irrelevant to this layer). -/
structure HttpServerConfig where
  BindAddress : String
  BindPort : Nat
  MaxHeaderBytes : Nat
  RequestTimeout : Nat
deriving DecidableEq

/-- `config.DatabaseConfig` (durations in nanoseconds, as Go `time.Duration`). -/
structure DatabaseConfig where
  Dsn : String
  MaxIdleConnections : Int
  MaxOpenConnections : Int
  ConnectionMaxIdleTime : Int
  ConnectionMaxLifetime : Int
  MigrationsDirPath : String
deriving DecidableEq

/-- `config.Config` (`LogLevel` is a `slog.Level`, an integer). -/
structure Config where
  AppBaseDir : String
  AppEnv : String
  LogLevel : Int
  LogPath : String
  HttpServer : HttpServerConfig
  Db : DatabaseConfig
deriving DecidableEq

/-- Go `context.Context`, restricted to the shapes this layer builds. -/
inductive Context where
  | background : Context
  | withTimeout (parent : Context) (seconds : Nat) : Context
deriving DecidableEq

/-- The three writer variants produced by `createLogWriter`; a file writer
carries the (cleaned) path its descriptor was opened at. -/
inductive LogWriter where
  | stdoutWriter : LogWriter
  | stderrWriter : LogWriter
  | fileLogWriter (path : String) : LogWriter
deriving DecidableEq

/-- Observable external events, in program order. -/
inductive Event where
  | mkdirAll (dir : String) : Event
  | openFile (path : String) : Event
  | closeWriter (w : LogWriter) : Event
  | openDb : Event
  | closeDb : Event
  | pingDb (ctx : Context) : Event
deriving DecidableEq

/-- Outcomes of all external calls; errors are their message strings. -/
structure Env where
  buildConfigRes : Except String Config
  mkdirAllRes : String → Except String Unit
  openFileRes : String → Except String Unit
  sqlOpenRes : String → Except String Unit
  pingRes : Context → Except String Unit
  dbCloseRes : Except String Unit
  fileCloseRes : String → Except String Unit

/-- `LogWriter.Close`: a no-op returning nil for stdout/stderr, the file
close result for a file writer. -/
def LogWriter.close (env : Env) : LogWriter → Except String Unit × List Event
  | LogWriter.stdoutWriter => (Except.ok (), [Event.closeWriter LogWriter.stdoutWriter])
  | LogWriter.stderrWriter => (Except.ok (), [Event.closeWriter LogWriter.stderrWriter])
  | LogWriter.fileLogWriter p =>
    (env.fileCloseRes p, [Event.closeWriter (LogWriter.fileLogWriter p)])

/-- `registry.validateLogPath`. -/
def validateLogPath (path : String) : Except String Unit :=
  if Filepath.IsAbs path then
    if Filepath.Clean path ≠ path then Except.error "path contains suspicious elements"
    else Except.ok ()
  else Except.ok ()

/-- `registry.createFileLogWriter`. -/
def createFileLogWriter (env : Env) (logPath : String) :
    Except String LogWriter × List Event :=
  if logPath = "" then (Except.error "log path cannot be empty", [])
  else
    let cleanPath := Filepath.Clean logPath
    match (if Filepath.IsAbs cleanPath then validateLogPath cleanPath else Except.ok ()) with
    | Except.error e => (Except.error ("invalid log path: " ++ e), [])
    | Except.ok _ =>
      let dir := Filepath.Dir cleanPath
      match env.mkdirAllRes dir with
      | Except.error e =>
        (Except.error ("failed to create log directory: " ++ e), [Event.mkdirAll dir])
      | Except.ok _ =>
        match env.openFileRes cleanPath with
        | Except.error e =>
          (Except.error ("failed to open log file: " ++ e), [Event.mkdirAll dir])
        | Except.ok _ =>
          (Except.ok (LogWriter.fileLogWriter cleanPath),
            [Event.mkdirAll dir, Event.openFile cleanPath])

/-- `registry.createLogWriter` (the `switch logPath` dispatcher). -/
def createLogWriter (env : Env) (logPath : String) :
    Except String LogWriter × List Event :=
  if logPath = "stdout" then (Except.ok LogWriter.stdoutWriter, [])
  else if logPath = "stderr" then (Except.ok LogWriter.stderrWriter, [])
  else createFileLogWriter env logPath

/-- `registry.ConfigService`. -/
structure ConfigService where
  config : Config
deriving DecidableEq

/-- `registry.NewConfigService`. -/
def NewConfigService (env : Env) : Except String ConfigService × List Event :=
  match env.buildConfigRes with
  | Except.error e => (Except.error ("failed to build configuration: " ++ e), [])
  | Except.ok cfg => (Except.ok ⟨cfg⟩, [])

/-- `registry.LoggerService` (the `*slog.Logger` field carries no behavior
relevant here and is modelled as `Unit`; `logWriter` is a nilable interface). -/
structure LoggerService where
  logger : Unit
  logWriter : Option LogWriter
deriving DecidableEq

/-- `registry.NewLoggerService` (the slog handler construction and
`slog.SetDefault` side effect produce no modelled events). -/
def NewLoggerService (env : Env) (configService : Option ConfigService) :
    Except String LoggerService × List Event :=
  match configService with
  | none => (Except.error "config service cannot be nil", [])
  | some cs =>
    match createLogWriter env cs.config.LogPath with
    | (Except.error e, tr) => (Except.error ("failed to create log writer: " ++ e), tr)
    | (Except.ok w, tr) => (Except.ok ⟨(), some w⟩, tr)

/-- `LoggerService.Close`. -/
def LoggerService.Close (env : Env) (l : LoggerService) :
    Except String Unit × List Event :=
  match l.logWriter with
  | none => (Except.ok (), [])
  | some w => w.close env

/-- `registry.DbService` (`db` is a nilable `*sql.DB` handle). -/
structure DbService where
  db : Option Unit
deriving DecidableEq

/-- `registry.createDatabaseConnection` (the pool-limit setters
`SetMaxIdleConns` etc. have no observable effect in this model). -/
def createDatabaseConnection (env : Env) (config : DatabaseConfig) :
    Except String Unit × List Event :=
  match env.sqlOpenRes config.Dsn with
  | Except.error e => (Except.error ("failed to open database connection: " ++ e), [])
  | Except.ok _ => (Except.ok (), [Event.openDb])

/-- `DbService.Close`. -/
def DbService.Close (env : Env) (d : DbService) : Except String Unit × List Event :=
  match d.db with
  | none => (Except.ok (), [])
  | some _ => (env.dbCloseRes, [Event.closeDb])

/-- `DbService.Ping`. -/
def DbService.Ping (env : Env) (ctx : Context) (d : DbService) :
    Except String Unit × List Event :=
  match d.db with
  | none => (Except.error "database connection is nil", [])
  | some _ => (env.pingRes ctx, [Event.pingDb ctx])

/-- `registry.NewDbService`. -/
def NewDbService (env : Env) (cfg : Option ConfigService) :
    Except String DbService × List Event :=
  match cfg with
  | none => (Except.error "config service cannot be nil", [])
  | some c =>
    let dbConfig := c.config.Db
    match createDatabaseConnection env dbConfig with
    | (Except.error e, tr) =>
      (Except.error ("failed to create database connection: " ++ e), tr)
    | (Except.ok _, tr1) =>
      let service : DbService := ⟨some ()⟩
      let ctx := Context.withTimeout Context.background 10
      match service.Ping env ctx with
      | (Except.error e, tr2) =>
        (Except.error ("failed to ping database: " ++ e),
          tr1 ++ tr2 ++ (service.Close env).2)
      | (Except.ok _, tr2) => (Except.ok service, tr1 ++ tr2)

/-- `registry.NewDbServiceFromDb` (test helper bypassing open and ping). -/
def NewDbServiceFromDb (db : Option Unit) : DbService := ⟨db⟩

/-- `registry.Container` (the three embedded service pointers). -/
structure Container where
  loggerService : Option LoggerService
  configService : Option ConfigService
  dbService : Option DbService
deriving DecidableEq

/-- Elements joined by single spaces, as Go `fmt` prints slice elements. -/
def joinSpace : List String → String
  | [] => ""
  | [s] => s
  | s :: rest => s ++ " " ++ joinSpace rest

/-- Go `fmt.Sprintf("%v", errors)` for a slice of errors. -/
def formatErrors (errs : List String) : String :=
  "[" ++ joinSpace errs ++ "]"

/-- `Container.Close`. -/
def Container.Close (env : Env) (c : Container) : Except String Unit × List Event :=
  let dbPart : List String × List Event :=
    match c.dbService with
    | none => ([], [])
    | some d =>
      match d.Close env with
      | (Except.error e, tr) => (["failed to close database service: " ++ e], tr)
      | (Except.ok _, tr) => ([], tr)
  let logPart : List String × List Event :=
    match c.loggerService with
    | none => ([], [])
    | some l =>
      match l.Close env with
      | (Except.error e, tr) => (["failed to close logger service: " ++ e], tr)
      | (Except.ok _, tr) => ([], tr)
  let errors := dbPart.1 ++ logPart.1
  let trace := dbPart.2 ++ logPart.2
  if errors.length > 0 then
    (Except.error ("errors during container shutdown: " ++ formatErrors errors), trace)
  else (Except.ok (), trace)

/-- `registry.NewContainer`. -/
def NewContainer (env : Env) : Except String Container × List Event :=
  match NewConfigService env with
  | (Except.error e, tr) => (Except.error ("failed to create config service: " ++ e), tr)
  | (Except.ok configService, tr0) =>
    match NewLoggerService env (some configService) with
    | (Except.error e, tr1) =>
      (Except.error ("failed to create logger service: " ++ e), tr0 ++ tr1)
    | (Except.ok loggerService, tr1) =>
      match NewDbService env (some configService) with
      | (Except.error e, tr2) =>
        (Except.error ("failed to create database service: " ++ e),
          tr0 ++ tr1 ++ tr2 ++ (loggerService.Close env).2)
      | (Except.ok dbService, tr2) =>
        (Except.ok ⟨some loggerService, some configService, some dbService⟩,
          tr0 ++ tr1 ++ tr2)

/-- The resources a run can hold open. -/
inductive Resource where
  | file (path : String) : Resource
  | dbConn : Resource
deriving DecidableEq

/-- Interpret one event on the multiset of currently-open resources: a
successful file open or pool open acquires, a close (which in Go releases the
descriptor or pool even when it reports an error) removes. -/
def resStep (s : List Resource) : Event → List Resource
  | Event.openFile p => Resource.file p :: s
  | Event.closeWriter (LogWriter.fileLogWriter p) => s.erase (Resource.file p)
  | Event.closeWriter _ => s
  | Event.openDb => Resource.dbConn :: s
  | Event.closeDb => s.erase Resource.dbConn
  | Event.mkdirAll _ => s
  | Event.pingDb _ => s

/-- Resources still open after a trace, starting from none. -/
def openResources (tr : List Event) : List Resource := tr.foldl resStep []

end Registry

namespace Registry

/-- The resource a writer holds (only a file writer holds one). -/
def LogWriter.res : LogWriter → List Resource
  | LogWriter.fileLogWriter p => [Resource.file p]
  | _ => []

/-- The resource held by a logger service's writer, if any. -/
def LoggerService.writerRes (l : LoggerService) : List Resource :=
  match l.logWriter with
  | some w => w.res
  | none => []

theorem close_trace (env : Env) (w : LogWriter) :
    (w.close env).2 = [Event.closeWriter w] := by
  cases w <;> rfl

theorem validateLogPath_Clean (p : String) :
    validateLogPath (Filepath.Clean p) = Except.ok () := by
  unfold validateLogPath
  rw [Filepath.Clean_idem]
  simp

theorem createFileLogWriter_eq (env : Env) (p : String) (hp : p ≠ "") :
    createFileLogWriter env p =
      match env.mkdirAllRes (Filepath.Dir (Filepath.Clean p)) with
      | Except.error e =>
        (Except.error ("failed to create log directory: " ++ e),
          [Event.mkdirAll (Filepath.Dir (Filepath.Clean p))])
      | Except.ok _ =>
        match env.openFileRes (Filepath.Clean p) with
        | Except.error e =>
          (Except.error ("failed to open log file: " ++ e),
            [Event.mkdirAll (Filepath.Dir (Filepath.Clean p))])
        | Except.ok _ =>
          (Except.ok (LogWriter.fileLogWriter (Filepath.Clean p)),
            [Event.mkdirAll (Filepath.Dir (Filepath.Clean p)),
              Event.openFile (Filepath.Clean p)]) := by
  simp only [createFileLogWriter]
  rw [if_neg hp]
  have hv : (if Filepath.IsAbs (Filepath.Clean p) then validateLogPath (Filepath.Clean p)
      else Except.ok ()) = Except.ok () := by
    rw [validateLogPath_Clean]
    exact ite_self _
  rw [hv]

theorem createLogWriter_file (env : Env) (p : String) (h1 : p ≠ "stdout")
    (h2 : p ≠ "stderr") : createLogWriter env p = createFileLogWriter env p := by
  unfold createLogWriter
  rw [if_neg h1, if_neg h2]

theorem createLogWriter_trace_err (env : Env) (p : String) (e : String)
    (tr : List Event) (h : createLogWriter env p = (Except.error e, tr))
    (s : List Resource) : tr.foldl resStep s = s := by
  by_cases h1 : p = "stdout"
  · subst h1
    have hc : createLogWriter env "stdout" = (Except.ok LogWriter.stdoutWriter, []) := by
      simp [createLogWriter]
    rw [hc] at h
    simp at h
  by_cases h2 : p = "stderr"
  · subst h2
    have hc : createLogWriter env "stderr" = (Except.ok LogWriter.stderrWriter, []) := by
      simp [createLogWriter]
    rw [hc] at h
    simp at h
  by_cases h3 : p = ""
  · subst h3
    have hc : createLogWriter env "" = (Except.error "log path cannot be empty", []) := by
      simp [createLogWriter, createFileLogWriter]
    rw [hc] at h
    simp only [Prod.mk.injEq] at h
    rw [← h.2]
    rfl
  · rw [createLogWriter_file env p h1 h2, createFileLogWriter_eq env p h3] at h
    cases hm : env.mkdirAllRes (Filepath.Dir (Filepath.Clean p)) with
    | error em =>
      rw [hm] at h
      simp only [Prod.mk.injEq] at h
      rw [← h.2]
      rfl
    | ok um =>
      rw [hm] at h
      cases ho : env.openFileRes (Filepath.Clean p) with
      | error eo =>
        rw [ho] at h
        simp only [Prod.mk.injEq] at h
        rw [← h.2]
        rfl
      | ok uo =>
        rw [ho] at h
        simp at h

theorem createLogWriter_trace_ok (env : Env) (p : String) (w : LogWriter)
    (tr : List Event) (h : createLogWriter env p = (Except.ok w, tr))
    (s : List Resource) : tr.foldl resStep s = w.res ++ s := by
  by_cases h1 : p = "stdout"
  · subst h1
    have hc : createLogWriter env "stdout" = (Except.ok LogWriter.stdoutWriter, []) := by
      simp [createLogWriter]
    rw [hc] at h
    simp only [Prod.mk.injEq, Except.ok.injEq] at h
    rw [← h.1, ← h.2]
    rfl
  by_cases h2 : p = "stderr"
  · subst h2
    have hc : createLogWriter env "stderr" = (Except.ok LogWriter.stderrWriter, []) := by
      simp [createLogWriter]
    rw [hc] at h
    simp only [Prod.mk.injEq, Except.ok.injEq] at h
    rw [← h.1, ← h.2]
    rfl
  by_cases h3 : p = ""
  · subst h3
    have hc : createLogWriter env "" = (Except.error "log path cannot be empty", []) := by
      simp [createLogWriter, createFileLogWriter]
    rw [hc] at h
    simp at h
  · rw [createLogWriter_file env p h1 h2, createFileLogWriter_eq env p h3] at h
    cases hm : env.mkdirAllRes (Filepath.Dir (Filepath.Clean p)) with
    | error em =>
      rw [hm] at h
      simp at h
    | ok um =>
      rw [hm] at h
      cases ho : env.openFileRes (Filepath.Clean p) with
      | error eo =>
        rw [ho] at h
        simp at h
      | ok uo =>
        rw [ho] at h
        simp only [Prod.mk.injEq, Except.ok.injEq] at h
        rw [← h.1, ← h.2]
        rfl

end Registry

namespace Registry

theorem newLoggerService_ok (env : Env) (cs : ConfigService) (l : LoggerService)
    (tr : List Event) (h : NewLoggerService env (some cs) = (Except.ok l, tr)) :
    ∃ w, l.logWriter = some w ∧
      createLogWriter env cs.config.LogPath = (Except.ok w, tr) := by
  unfold NewLoggerService at h
  dsimp only at h
  cases hcw : createLogWriter env cs.config.LogPath with
  | mk r trw =>
    rw [hcw] at h
    cases r with
    | error e0 => simp at h
    | ok w =>
      simp only [Prod.mk.injEq, Except.ok.injEq] at h
      obtain ⟨hl, ht⟩ := h
      subst hl
      subst ht
      exact ⟨w, rfl, rfl⟩

theorem newLoggerService_err_trace (env : Env) (cs : ConfigService) (e : String)
    (tr : List Event) (h : NewLoggerService env (some cs) = (Except.error e, tr))
    (s : List Resource) : tr.foldl resStep s = s := by
  unfold NewLoggerService at h
  dsimp only at h
  cases hcw : createLogWriter env cs.config.LogPath with
  | mk r trw =>
    rw [hcw] at h
    cases r with
    | error e0 =>
      simp only [Prod.mk.injEq] at h
      rw [← h.2]
      exact createLogWriter_trace_err env cs.config.LogPath e0 trw hcw s
    | ok w => simp at h

theorem loggerClose_trace (env : Env) (l : LoggerService) (s : List Resource) :
    ((l.Close env).2).foldl resStep (l.writerRes ++ s) = s := by
  cases hlw : l.logWriter with
  | none =>
    simp [LoggerService.Close, LoggerService.writerRes, hlw]
  | some w =>
    cases w with
    | stdoutWriter =>
      simp [LoggerService.Close, LoggerService.writerRes, hlw, LogWriter.close,
        LogWriter.res, resStep]
    | stderrWriter =>
      simp [LoggerService.Close, LoggerService.writerRes, hlw, LogWriter.close,
        LogWriter.res, resStep]
    | fileLogWriter p =>
      simp [LoggerService.Close, LoggerService.writerRes, hlw, LogWriter.close,
        LogWriter.res, resStep, List.erase_cons_head]

theorem newDbService_ok_trace (env : Env) (cs : ConfigService) (d : DbService)
    (tr : List Event) (h : NewDbService env (some cs) = (Except.ok d, tr))
    (s : List Resource) : tr.foldl resStep s = Resource.dbConn :: s := by
  unfold NewDbService at h
  dsimp only at h
  cases hm : env.sqlOpenRes cs.config.Db.Dsn with
  | error e0 =>
    simp only [createDatabaseConnection, hm] at h
    simp at h
  | ok u =>
    simp only [createDatabaseConnection, hm] at h
    simp only [DbService.Ping] at h
    cases hp : env.pingRes (Context.withTimeout Context.background 10) with
    | error e0 =>
      rw [hp] at h
      simp at h
    | ok u2 =>
      rw [hp] at h
      simp only [Prod.mk.injEq, Except.ok.injEq] at h
      rw [← h.2]
      rfl

theorem newDbService_err_trace (env : Env) (cs : ConfigService) (e : String)
    (tr : List Event) (h : NewDbService env (some cs) = (Except.error e, tr))
    (s : List Resource) : tr.foldl resStep s = s := by
  unfold NewDbService at h
  dsimp only at h
  cases hm : env.sqlOpenRes cs.config.Db.Dsn with
  | error e0 =>
    simp only [createDatabaseConnection, hm] at h
    simp only [Prod.mk.injEq] at h
    rw [← h.2]
    rfl
  | ok u =>
    simp only [createDatabaseConnection, hm] at h
    simp only [DbService.Ping] at h
    cases hp : env.pingRes (Context.withTimeout Context.background 10) with
    | error e0 =>
      rw [hp] at h
      simp only [DbService.Close] at h
      simp only [Prod.mk.injEq] at h
      rw [← h.2]
      simp [resStep, List.erase_cons_head]
    | ok u2 =>
      rw [hp] at h
      simp at h

end Registry

namespace Registry

deriving instance DecidableEq for Except

/-- A sample configuration used by concrete witness runs. -/
def sampleConfig : Config :=
  { AppBaseDir := "/app", AppEnv := "dev", LogLevel := 4,
    LogPath := "/var/log/app.log",
    HttpServer := ⟨"127.0.0.1", 8080, 1048576, 30⟩,
    Db := ⟨"user:pass@tcp(localhost:3306)/app", 2, 10, 180000000000,
      180000000000, "migrations/versions"⟩ }

/-- An environment in which every external call succeeds except the
database liveness ping. -/
def pingFailEnv : Env :=
  { buildConfigRes := Except.ok sampleConfig,
    mkdirAllRes := fun _ => Except.ok (),
    openFileRes := fun _ => Except.ok (),
    sqlOpenRes := fun _ => Except.ok (),
    pingRes := fun _ => Except.error "dial tcp: timeout",
    dbCloseRes := Except.ok (),
    fileCloseRes := fun _ => Except.ok () }

/-- An environment in which every external call succeeds. -/
def allOkEnv : Env :=
  { buildConfigRes := Except.ok sampleConfig,
    mkdirAllRes := fun _ => Except.ok (),
    openFileRes := fun _ => Except.ok (),
    sqlOpenRes := fun _ => Except.ok (),
    pingRes := fun _ => Except.ok (),
    dbCloseRes := Except.ok (),
    fileCloseRes := fun _ => Except.ok () }

/-- An environment in which both close operations fail. -/
def closeFailEnv : Env :=
  { buildConfigRes := Except.ok sampleConfig,
    mkdirAllRes := fun _ => Except.ok (),
    openFileRes := fun _ => Except.ok (),
    sqlOpenRes := fun _ => Except.ok (),
    pingRes := fun _ => Except.ok (),
    dbCloseRes := Except.error "db close failed",
    fileCloseRes := fun _ => Except.error "file close failed" }

/-- **C1**: whenever `NewContainer` fails — at the config, logger,
database-open or ping stage — it returns no container, only an error, and
every resource opened by earlier stages has been closed again: the multiset
of resources still held open by the failed run is empty. -/
theorem newContainer_failure_leaves_no_resources (env : Env) (e : String)
    (h : (NewContainer env).1 = Except.error e) :
    openResources (NewContainer env).2 = [] := by
  unfold NewContainer at h ⊢
  cases hc : env.buildConfigRes with
  | error ec =>
    simp only [NewConfigService, hc]
    rfl
  | ok cfg =>
    simp only [NewConfigService, hc] at h ⊢
    cases hL : NewLoggerService env (some ⟨cfg⟩) with
    | mk r1 tr1 =>
      rw [hL] at h
      cases r1 with
      | error e1 =>
        dsimp only
        show List.foldl resStep [] ([] ++ tr1) = []
        rw [List.nil_append]
        exact newLoggerService_err_trace env ⟨cfg⟩ e1 tr1 hL []
      | ok ls =>
        cases hD : NewDbService env (some ⟨cfg⟩) with
        | mk r2 tr2 =>
          rw [hD] at h
          cases r2 with
          | error e2 =>
            dsimp only
            obtain ⟨w, hw, hcw⟩ := newLoggerService_ok env ⟨cfg⟩ ls tr1 hL
            show List.foldl resStep [] ((([] ++ tr1) ++ tr2) ++ (ls.Close env).2) = []
            simp only [List.foldl_append, List.nil_append]
            rw [createLogWriter_trace_ok env _ w tr1 hcw [],
              newDbService_err_trace env ⟨cfg⟩ e2 tr2 hD (w.res ++ [])]
            have hwr : ls.writerRes = w.res := by
              simp [LoggerService.writerRes, hw]
            rw [← hwr]
            exact loggerClose_trace env ls []
          | ok ds =>
            dsimp only at h
            simp at h

/-- Witness for C1: with a file log path and a failing ping, construction
fails and no resource stays open. -/
theorem newContainer_failure_leaves_no_resources_witness :
    (NewContainer pingFailEnv).1 =
      Except.error "failed to create database service: failed to ping database: dial tcp: timeout" ∧
    openResources (NewContainer pingFailEnv).2 = [] :=
  ⟨by decide, newContainer_failure_leaves_no_resources pingFailEnv
    "failed to create database service: failed to ping database: dial tcp: timeout"
    (by decide)⟩

end Registry

namespace Registry

theorem shutdown_both_fail_msg (e1 e2 : String) :
    "errors during container shutdown: " ++
        formatErrors ["failed to close database service: " ++ e1,
          "failed to close logger service: " ++ e2] =
      "errors during container shutdown: [failed to close database service: "
        ++ e1 ++ " failed to close logger service: " ++ e2 ++ "]" := by
  apply String.ext
  simp only [formatErrors, joinSpace, String.data_append]
  simp [List.append_assoc]

/-- **C2**: on a container whose database and logger services are both
present, `Close` performs the database close and then the logger close —
both of them, even when the first fails — and when both fail it returns one
error naming both failures; when both succeed it returns nil. -/
theorem containerClose_total_best_effort (env : Env) (c : Container)
    (ds : DbService) (ls : LoggerService)
    (hd : c.dbService = some ds) (hl : c.loggerService = some ls) :
    (c.Close env).2 = (ds.Close env).2 ++ (ls.Close env).2 ∧
    (∀ e1 e2, (ds.Close env).1 = Except.error e1 →
      (ls.Close env).1 = Except.error e2 →
      (c.Close env).1 = Except.error
        ("errors during container shutdown: [failed to close database service: "
          ++ e1 ++ " failed to close logger service: " ++ e2 ++ "]")) ∧
    ((ds.Close env).1 = Except.ok () → (ls.Close env).1 = Except.ok () →
      (c.Close env).1 = Except.ok ()) := by
  unfold Container.Close
  rw [hd, hl]
  dsimp only
  cases hdc : ds.Close env with
  | mk rd trd =>
    cases hlc : ls.Close env with
    | mk rl trl =>
      cases rd with
      | error e1 =>
        cases rl with
        | error e2 =>
          refine ⟨rfl, ?_, ?_⟩
          · intro e1' e2' h1 h2
            dsimp only at h1 h2
            injection h1 with h1'
            injection h2 with h2'
            subst h1'
            subst h2'
            show Except.error ("errors during container shutdown: " ++
              formatErrors ["failed to close database service: " ++ e1,
                "failed to close logger service: " ++ e2]) = _
            rw [shutdown_both_fail_msg]
          · intro h1 h2
            simp at h1
        | ok u =>
          refine ⟨rfl, ?_, ?_⟩
          · intro e1' e2' h1 h2
            simp at h2
          · intro h1 h2
            simp at h1
      | ok u =>
        cases rl with
        | error e2 =>
          refine ⟨rfl, ?_, ?_⟩
          · intro e1' e2' h1 h2
            simp at h1
          · intro h1 h2
            simp at h2
        | ok u2 =>
          exact ⟨rfl, fun e1' e2' h1 _ => by simp at h1, fun _ _ => rfl⟩

/-- Witness for C2: a container holding a file-writer logger and a database
handle, in an environment where both closes fail. -/
theorem containerClose_total_best_effort_witness :
    (({ loggerService := some ⟨(), some (LogWriter.fileLogWriter "/var/log/app.log")⟩,
        configService := some ⟨sampleConfig⟩,
        dbService := some ⟨some ()⟩ } : Container).Close closeFailEnv).1 =
      Except.error
        ("errors during container shutdown: [failed to close database service: "
          ++ "db close failed" ++ " failed to close logger service: "
          ++ "file close failed" ++ "]") :=
  (containerClose_total_best_effort closeFailEnv _ ⟨some ()⟩
      ⟨(), some (LogWriter.fileLogWriter "/var/log/app.log")⟩ rfl rfl).2.1
    "db close failed" "file close failed" (by decide) (by decide)

end Registry

namespace Registry

/-- **C3**: when logger construction has succeeded and database-service
construction then fails, the logger's writer close is invoked — it is the
final event of the run — before `NewContainer` returns its error. -/
theorem newContainer_dbfail_closes_writer (env : Env) (cfg : Config)
    (ls : LoggerService) (tr1 : List Event) (e : String) (tr2 : List Event)
    (hc : env.buildConfigRes = Except.ok cfg)
    (hl : NewLoggerService env (some ⟨cfg⟩) = (Except.ok ls, tr1))
    (hd : NewDbService env (some ⟨cfg⟩) = (Except.error e, tr2)) :
    ∃ w, ls.logWriter = some w ∧
      (NewContainer env).1 =
        Except.error ("failed to create database service: " ++ e) ∧
      (NewContainer env).2.getLast? = some (Event.closeWriter w) := by
  obtain ⟨w, hw, hcw⟩ := newLoggerService_ok env ⟨cfg⟩ ls tr1 hl
  have hct : (ls.Close env).2 = [Event.closeWriter w] := by
    simp [LoggerService.Close, hw, close_trace]
  refine ⟨w, hw, ?_, ?_⟩
  · unfold NewContainer
    simp only [NewConfigService, hc]
    rw [hl, hd]
  · unfold NewContainer
    simp only [NewConfigService, hc]
    rw [hl, hd]
    dsimp only
    rw [hct]
    exact List.getLast?_concat _

/-- Witness for C3: a run with a file-backed logger whose database ping
fails; its final event closes that file writer. -/
theorem newContainer_dbfail_closes_writer_witness :
    ∃ w, (⟨(), some (LogWriter.fileLogWriter "/var/log/app.log")⟩ :
        LoggerService).logWriter = some w ∧
      (NewContainer pingFailEnv).1 =
        Except.error ("failed to create database service: " ++
          "failed to ping database: dial tcp: timeout") ∧
      (NewContainer pingFailEnv).2.getLast? = some (Event.closeWriter w) :=
  newContainer_dbfail_closes_writer pingFailEnv sampleConfig
    ⟨(), some (LogWriter.fileLogWriter "/var/log/app.log")⟩
    [Event.mkdirAll "/var/log", Event.openFile "/var/log/app.log"]
    "failed to ping database: dial tcp: timeout"
    [Event.openDb, Event.pingDb (Context.withTimeout Context.background 10),
      Event.closeDb]
    (by decide) (by decide) (by decide)

/-- **C7**: `Close` on a container whose database service is absent, or whose
database service holds a nil handle, returns nil without touching the
database, provided the logger close (if a logger is present) succeeds. -/
theorem containerClose_nil_db_ok (env : Env) (c : Container)
    (hdb : c.dbService = none ∨ c.dbService = some ⟨none⟩)
    (hlog : ∀ l, c.loggerService = some l → (l.Close env).1 = Except.ok ()) :
    (c.Close env).1 = Except.ok () := by
  unfold Container.Close
  have hdbpart : (match c.dbService with
      | none => (([] : List String), ([] : List Event))
      | some d =>
        match d.Close env with
        | (Except.error e, tr) => (["failed to close database service: " ++ e], tr)
        | (Except.ok _, tr) => ([], tr)) =
      ([], (match c.dbService with
        | none => ([] : List Event)
        | some d => (d.Close env).2)) := by
    rcases hdb with hdb | hdb
    · rw [hdb]
    · rw [hdb]
      rfl
  rw [hdbpart]
  cases hcl : c.loggerService with
  | none => rfl
  | some l =>
    dsimp only
    cases hlc : l.Close env with
    | mk rl trl =>
      have hok := hlog l hcl
      rw [hlc] at hok
      dsimp only at hok
      subst hok
      rfl

/-- Witness for C7: a container with a nil database handle and a stdout
logger closes successfully. -/
theorem containerClose_nil_db_ok_witness :
    (({ loggerService := some ⟨(), some LogWriter.stdoutWriter⟩,
        configService := some ⟨sampleConfig⟩,
        dbService := some ⟨none⟩ } : Container).Close allOkEnv).1 =
      Except.ok () :=
  containerClose_nil_db_ok allOkEnv _ (Or.inr rfl)
    (fun l hl => by
      injection hl with hl'
      rw [← hl']
      decide)

end Registry

namespace Registry

/-- An environment in which `sql.Open` itself fails. -/
def openFailEnv : Env :=
  { allOkEnv with sqlOpenRes := fun _ => Except.error "invalid DSN" }

/-- **C4**: in `NewDbService`, when the pool open succeeds but the ping
fails, the handle's close is invoked (the `closeDb` event follows the ping)
before the error is returned; when the open itself fails, no close of a
database handle is attempted and the (wrapped) open error is returned with
no cleanup event at all. -/
theorem newDbService_close_policy (env : Env) (cs : ConfigService) :
    (∀ e, env.sqlOpenRes cs.config.Db.Dsn = Except.ok () →
      env.pingRes (Context.withTimeout Context.background 10) = Except.error e →
      (NewDbService env (some cs)).1 =
        Except.error ("failed to ping database: " ++ e) ∧
      (NewDbService env (some cs)).2 =
        [Event.openDb, Event.pingDb (Context.withTimeout Context.background 10),
          Event.closeDb]) ∧
    (∀ e, env.sqlOpenRes cs.config.Db.Dsn = Except.error e →
      (NewDbService env (some cs)).1 =
        Except.error ("failed to create database connection: " ++
          ("failed to open database connection: " ++ e)) ∧
      (NewDbService env (some cs)).2 = [] ∧
      Event.closeDb ∉ (NewDbService env (some cs)).2) := by
  constructor
  · intro e ho hp
    simp only [NewDbService, createDatabaseConnection, ho, DbService.Ping]
    rw [hp]
    exact ⟨rfl, rfl⟩
  · intro e ho
    simp only [NewDbService, createDatabaseConnection, ho]
    refine ⟨trivial, trivial, ?_⟩
    simp

/-- Witness for C4 (ping-failure half): open succeeds, ping fails, the run
closes the handle and reports the ping error. -/
theorem newDbService_close_policy_witness :
    (NewDbService pingFailEnv (some ⟨sampleConfig⟩)).1 =
      Except.error ("failed to ping database: " ++ "dial tcp: timeout") ∧
    (NewDbService pingFailEnv (some ⟨sampleConfig⟩)).2 =
      [Event.openDb, Event.pingDb (Context.withTimeout Context.background 10),
        Event.closeDb] :=
  (newDbService_close_policy pingFailEnv ⟨sampleConfig⟩).1 "dial tcp: timeout"
    (by decide) (by decide)

/-- **C6**: each database-stage failure is wrapped with a stage-identifying
message: a pool-open failure yields an error extending
`"failed to create database connection: "`, a ping failure an error
extending `"failed to ping database: "`, so the stages are distinguishable
from the error alone. -/
theorem newDbService_stage_errors (env : Env) (cs : ConfigService) :
    (∀ e, env.sqlOpenRes cs.config.Db.Dsn = Except.error e →
      (NewDbService env (some cs)).1 =
        Except.error ("failed to create database connection: " ++
          ("failed to open database connection: " ++ e))) ∧
    (∀ e, env.sqlOpenRes cs.config.Db.Dsn = Except.ok () →
      env.pingRes (Context.withTimeout Context.background 10) = Except.error e →
      (NewDbService env (some cs)).1 =
        Except.error ("failed to ping database: " ++ e)) := by
  constructor
  · intro e ho
    simp only [NewDbService, createDatabaseConnection, ho]
  · intro e ho hp
    simp only [NewDbService, createDatabaseConnection, ho, DbService.Ping]
    rw [hp]

/-- Witness for C6: a failing open is wrapped with the open-stage message. -/
theorem newDbService_stage_errors_witness :
    (NewDbService openFailEnv (some ⟨sampleConfig⟩)).1 =
      Except.error ("failed to create database connection: " ++
        ("failed to open database connection: " ++ "invalid DSN")) :=
  (newDbService_stage_errors openFailEnv ⟨sampleConfig⟩).1 "invalid DSN" (by decide)

/-- Does an event record a liveness ping? -/
def isPing : Event → Bool
  | Event.pingDb _ => true
  | _ => false

/-- **C8**: a database-service construction performs at most one ping, and
whenever the pool open succeeds it performs exactly one, carrying the
context built from the background context with the fixed 10-second timeout;
a ping failure is never retried. -/
theorem newDbService_ping_once (env : Env) (cs : ConfigService) :
    (((NewDbService env (some cs)).2).filter isPing).length ≤ 1 ∧
    (env.sqlOpenRes cs.config.Db.Dsn = Except.ok () →
      ((NewDbService env (some cs)).2).filter isPing =
        [Event.pingDb (Context.withTimeout Context.background 10)]) := by
  simp only [NewDbService, createDatabaseConnection, DbService.Ping, DbService.Close]
  cases ho : env.sqlOpenRes cs.config.Db.Dsn with
  | error e =>
    constructor
    · simp
    · intro hcontra
      simp at hcontra
  | ok u =>
    cases hp : env.pingRes (Context.withTimeout Context.background 10) with
    | error e => exact ⟨by simp [isPing], fun _ => rfl⟩
    | ok u2 => exact ⟨by simp [isPing], fun _ => rfl⟩

/-- Witness for C8: a successful run pings exactly once under the 10-second
background-derived context. -/
theorem newDbService_ping_once_witness :
    ((NewDbService allOkEnv (some ⟨sampleConfig⟩)).2).filter isPing =
      [Event.pingDb (Context.withTimeout Context.background 10)] :=
  (newDbService_ping_once allOkEnv ⟨sampleConfig⟩).2 (by decide)

/-- **C9**: `Ping` returns the descriptive nil-handle error when the pool
handle is absent, and otherwise returns exactly the result of the
context-bounded liveness probe. -/
theorem dbService_ping_contract (env : Env) (ctx : Context) (d : DbService) :
    (d.db = none → (d.Ping env ctx).1 = Except.error "database connection is nil") ∧
    (∀ u, d.db = some u → (d.Ping env ctx).1 = env.pingRes ctx) := by
  constructor
  · intro h
    simp [DbService.Ping, h]
  · intro u h
    simp [DbService.Ping, h]

/-- Witness for C9: a nil handle yields the descriptive error. -/
theorem dbService_ping_contract_witness :
    ((⟨none⟩ : DbService).Ping allOkEnv Context.background).1 =
      Except.error "database connection is nil" :=
  (dbService_ping_contract allOkEnv Context.background ⟨none⟩).1 rfl

end Registry

namespace Registry

/-- **C5**: writer selection is total and exclusive: `"stdout"` yields the
standard-output writer (nil no-op close), `"stderr"` the standard-error
writer (nil no-op close), the empty string the configuration error
`"log path cannot be empty"`, and every other value is treated as a file
path — cleaned, its parent directory created, the file opened for append —
yielding the file writer at the cleaned path or the error of the failing
filesystem step.  The four input classes partition all strings, so exactly
one outcome occurs for every input. -/
theorem createLogWriter_total_exclusive (env : Env) (p : String) :
    (p = "stdout" → (createLogWriter env p).1 = Except.ok LogWriter.stdoutWriter ∧
      (LogWriter.stdoutWriter.close env).1 = Except.ok ()) ∧
    (p = "stderr" → (createLogWriter env p).1 = Except.ok LogWriter.stderrWriter ∧
      (LogWriter.stderrWriter.close env).1 = Except.ok ()) ∧
    (p = "" → (createLogWriter env p).1 = Except.error "log path cannot be empty") ∧
    (p ≠ "stdout" → p ≠ "stderr" → p ≠ "" →
      (createLogWriter env p).1 =
        Except.ok (LogWriter.fileLogWriter (Filepath.Clean p)) ∨
      (∃ e, (createLogWriter env p).1 =
        Except.error ("failed to create log directory: " ++ e)) ∨
      (∃ e, (createLogWriter env p).1 =
        Except.error ("failed to open log file: " ++ e))) := by
  refine ⟨?_, ?_, ?_, ?_⟩
  · intro h
    subst h
    exact ⟨rfl, rfl⟩
  · intro h
    subst h
    exact ⟨rfl, rfl⟩
  · intro h
    subst h
    rfl
  · intro h1 h2 h3
    rw [createLogWriter_file env p h1 h2, createFileLogWriter_eq env p h3]
    cases hm : env.mkdirAllRes (Filepath.Dir (Filepath.Clean p)) with
    | error em => exact Or.inr (Or.inl ⟨em, rfl⟩)
    | ok um =>
      cases ho : env.openFileRes (Filepath.Clean p) with
      | error eo => exact Or.inr (Or.inr ⟨eo, rfl⟩)
      | ok uo => exact Or.inl rfl

/-- Witness for C5: a concrete file path takes the file branch and, with the
filesystem succeeding, yields the file writer at the cleaned path. -/
theorem createLogWriter_total_exclusive_witness :
    (createLogWriter allOkEnv "/var/log/app.log").1 =
      Except.ok (LogWriter.fileLogWriter (Filepath.Clean "/var/log/app.log")) ∨
    (∃ e, (createLogWriter allOkEnv "/var/log/app.log").1 =
      Except.error ("failed to create log directory: " ++ e)) ∨
    (∃ e, (createLogWriter allOkEnv "/var/log/app.log").1 =
      Except.error ("failed to open log file: " ++ e)) :=
  (createLogWriter_total_exclusive allOkEnv "/var/log/app.log").2.2.2
    (by decide) (by decide) (by decide)

theorem append_ne_append (a b ea eb : String) (ca cb : Char)
    (ra rb : List Char) (ha : a.data = ca :: ra) (hb : b.data = cb :: rb)
    (hne : ca ≠ cb) : a ++ ea ≠ b ++ eb := by
  intro h
  have hd := congrArg String.data h
  rw [String.data_append, String.data_append, ha, hb, List.cons_append,
    List.cons_append] at hd
  injection hd with h1 h2
  exact hne h1

theorem lit_ne_append (a b eb : String) (ca cb : Char) (ra rb : List Char)
    (ha : a.data = ca :: ra) (hb : b.data = cb :: rb) (hne : ca ≠ cb) :
    a ≠ b ++ eb := by
  intro h
  have hd := congrArg String.data h
  rw [String.data_append, ha, hb, List.cons_append] at hd
  injection hd with h1 h2
  exact hne h1

/-- **C10**: `validateLogPath` is only ever reached on a path that has
already been normalized by `filepath.Clean`; since `Clean` is idempotent the
internal `cleanPath != path` test never fires, so `createFileLogWriter`
never returns the `"invalid log path: path contains suspicious elements"`
error, for any input and any filesystem behavior. -/
theorem createFileLogWriter_no_suspicious (env : Env) (p : String) :
    Filepath.Clean (Filepath.Clean p) = Filepath.Clean p ∧
    validateLogPath (Filepath.Clean p) = Except.ok () ∧
    ∀ e, (createFileLogWriter env p).1 ≠ Except.error ("invalid log path: " ++ e) := by
  refine ⟨Filepath.Clean_idem p, validateLogPath_Clean p, ?_⟩
  by_cases hp : p = ""
  · subst hp
    intro e hcontra
    have h0 : (createFileLogWriter env "").1 =
        Except.error "log path cannot be empty" := rfl
    rw [h0] at hcontra
    injection hcontra with hmsg
    exact lit_ne_append "log path cannot be empty" "invalid log path: " e
      'l' 'i' ("og path cannot be empty" : String).data
      ("nvalid log path: " : String).data (by decide) (by decide) (by decide) hmsg
  · intro e hcontra
    rw [createFileLogWriter_eq env p hp] at hcontra
    cases hm : env.mkdirAllRes (Filepath.Dir (Filepath.Clean p)) with
    | error em =>
      rw [hm] at hcontra
      dsimp only at hcontra
      injection hcontra with hmsg
      exact append_ne_append "failed to create log directory: "
        "invalid log path: " em e 'f' 'i'
        ("ailed to create log directory: " : String).data
        ("nvalid log path: " : String).data (by decide) (by decide) (by decide) hmsg
    | ok um =>
      rw [hm] at hcontra
      cases ho : env.openFileRes (Filepath.Clean p) with
      | error eo =>
        rw [ho] at hcontra
        dsimp only at hcontra
        injection hcontra with hmsg
        exact append_ne_append "failed to open log file: "
          "invalid log path: " eo e 'f' 'i'
          ("ailed to open log file: " : String).data
          ("nvalid log path: " : String).data (by decide) (by decide) (by decide) hmsg
      | ok uo =>
        rw [ho] at hcontra
        dsimp only at hcontra
        exact Except.noConfusion hcontra

/-- Witness for C10: a traversal-looking path (which `Clean` rewrites) still
never produces the suspicious-elements error. -/
theorem createFileLogWriter_no_suspicious_witness :
    (createFileLogWriter allOkEnv "/var/../etc/passwd").1 ≠
      Except.error ("invalid log path: " ++ "path contains suspicious elements") :=
  (createFileLogWriter_no_suspicious allOkEnv "/var/../etc/passwd").2.2
    "path contains suspicious elements"

end Registry
